import Mathlib

/-!
Shallow embedding of `src/math/src/field/extensions/cubic.rs` (winterfell cubic
extension field).  The Rust code is generic over a base field `B` implementing
`FieldElement` and the `ExtensibleField<3>` capability; we model that interface
as an explicit structure of operations, and the byte-level interface
(`ELEMENT_BYTES`, raw memory layout, `Serializable`/`Deserializable`) as a
second structure.  The `CubeExtension` operations below are translated
line-by-line from the source.
-/

deriving instance DecidableEq for Except

/-- The error type of the utils crate used by the deserialization paths
(`DeserializationError` in Rust): the code in `cubic.rs` only constructs the
`InvalidValue(String)` variant; base-field readers may also signal an
end-of-input condition, modelled by `unexpectedEOF`. -/
inductive DeserializationError where
  | invalidValue (msg : String) : DeserializationError
  | unexpectedEOF : DeserializationError
deriving DecidableEq, Repr

/-- The arithmetic interface the Rust code consumes from the base field `B`:
its `FieldElement` operations (`ZERO`, `ONE`, `+`, `-`, `*`, `neg`, `inv`,
`zeroed_vector`) together with the `ExtensibleField<3>` capability
(`mul` on coefficient triples, here `tmul`, and `frobenius`). -/
structure ExtensibleField3 (B : Type) where
  zero : B
  one : B
  add : B → B → B
  sub : B → B → B
  mul : B → B → B
  neg : B → B
  inv : B → B
  tmul : B × B × B → B × B × B → B × B × B
  frobenius : B × B × B → B × B × B
  zeroedVector : Nat → List B

/-- The byte-level interface the Rust code consumes from the base field `B`:
`B::ELEMENT_BYTES`, the raw in-memory layout of one element (`fromRaw`, used
by the pointer-cast in `bytes_as_elements`), and the `Serializable` /
`Deserializable` pair (`write_into` / `read_from`).  Bytes are modelled as
`List Nat`. -/
structure ByteRepr (B : Type) where
  elementBytes : Nat
  fromRaw : List Nat → B
  writeInto : B → List Nat
  readFrom : List Nat → Except DeserializationError (B × List Nat)

/-- The tuple struct `CubeExtension(B, B, B)` representing
α + β·φ + γ·φ². -/
structure CubeExtension (B : Type) where
  a0 : B
  a1 : B
  a2 : B
deriving DecidableEq, Repr

namespace CubeExtension

variable {B : Type}

/-- The coefficient array `[self.0, self.1, self.2]` passed to the capability. -/
def toTriple (x : CubeExtension B) : B × B × B :=
  (x.a0, x.a1, x.a2)

/-- Rebuilding `Self(result[0], result[1], result[2])` from a capability result. -/
def ofTriple (t : B × B × B) : CubeExtension B :=
  ⟨t.1, t.2.1, t.2.2⟩

/-- Rust `Self::ZERO = Self(B::ZERO, B::ZERO, B::ZERO)`. -/
def ZERO (F : ExtensibleField3 B) : CubeExtension B :=
  ⟨F.zero, F.zero, F.zero⟩

/-- Rust `Self::ONE = Self(B::ONE, B::ZERO, B::ZERO)`. -/
def ONE (F : ExtensibleField3 B) : CubeExtension B :=
  ⟨F.one, F.zero, F.zero⟩

/-- Rust `impl Add for CubeExtension`: component-wise base-field addition. -/
def add (F : ExtensibleField3 B) (x y : CubeExtension B) : CubeExtension B :=
  ⟨F.add x.a0 y.a0, F.add x.a1 y.a1, F.add x.a2 y.a2⟩

/-- Rust `impl Sub for CubeExtension`: component-wise base-field subtraction. -/
def sub (F : ExtensibleField3 B) (x y : CubeExtension B) : CubeExtension B :=
  ⟨F.sub x.a0 y.a0, F.sub x.a1 y.a1, F.sub x.a2 y.a2⟩

/-- Rust `impl Neg for CubeExtension`: component-wise base-field negation. -/
def neg (F : ExtensibleField3 B) (x : CubeExtension B) : CubeExtension B :=
  ⟨F.neg x.a0, F.neg x.a1, F.neg x.a2⟩

/-- Rust `impl Mul for CubeExtension`: delegate to the capability's triple
multiplication `<B as ExtensibleField<3>>::mul`. -/
def mul (F : ExtensibleField3 B) (x y : CubeExtension B) : CubeExtension B :=
  ofTriple (F.tmul (toTriple x) (toTriple y))

/-- Rust `FieldElement::inv` for `CubeExtension` (lines 67-88 of the source):
zero maps to itself; otherwise apply Frobenius twice, multiply the two
conjugates into `numerator`, compute the `norm`, and scale `numerator` by the
base-field inverse of the norm's first component. -/
def inv [DecidableEq B] (F : ExtensibleField3 B) (x : CubeExtension B) :
    CubeExtension B :=
  if x = ZERO F then x
  else
    let xt := toTriple x
    let c1 := F.frobenius xt
    let c2 := F.frobenius c1
    let numerator := F.tmul c1 c2
    let norm := F.tmul xt numerator
    let denomInv := F.inv norm.1
    ⟨F.mul numerator.1 denomInv, F.mul numerator.2.1 denomInv,
      F.mul numerator.2.2 denomInv⟩

/-- Rust `FieldElement::conjugate` for `CubeExtension` (lines 90-94): one
application of the Frobenius capability. -/
def conjugate (F : ExtensibleField3 B) (x : CubeExtension B) : CubeExtension B :=
  ofTriple (F.frobenius (toTriple x))

/-- Rust `impl Div for CubeExtension`: `self * rhs.inv()`. -/
def div [DecidableEq B] (F : ExtensibleField3 B) (x y : CubeExtension B) :
    CubeExtension B :=
  mul F x (inv F y)

/-- Rust `base_to_cubic_vector` (lines 44-55): reinterpret a vector of base
elements as a vector of cubic elements by fusing three adjacent base elements.
The pointer cast sets `len = v.len() / 3` (integer division), so with debug
assertions disabled a trailing remainder of one or two base elements is
silently dropped; this definition is that release-mode semantics. -/
def base_to_cubic_vector : List B → List (CubeExtension B)
  | a :: b :: c :: rest => ⟨a, b, c⟩ :: base_to_cubic_vector rest
  | _ => []

/-- Rust `zeroed_vector` (lines 126-131): get three times the number of base
elements from the base field and re-interpret them as cubic elements. -/
def zeroed_vector (F : ExtensibleField3 B) (n : Nat) : List (CubeExtension B) :=
  base_to_cubic_vector (F.zeroedVector (n * 3))

/-- Rust `as_base_elements` (lines 133-137): view a slice of cubic elements as a
slice of base elements of three times the length, in coefficient order. -/
def as_base_elements (elements : List (CubeExtension B)) : List B :=
  elements.flatMap (fun e => [e.a0, e.a1, e.a2])

/-- Rust `Self::ELEMENT_BYTES = B::ELEMENT_BYTES * 3`. -/
def ELEMENT_BYTES (R : ByteRepr B) : Nat :=
  R.elementBytes * 3

/-- The typed view produced by the pointer cast in `bytes_as_elements`:
each consecutive `ELEMENT_BYTES` chunk of memory is one cubic element, whose
three base coefficients occupy consecutive `elementBytes` sub-chunks. `n` is
the element count `bytes.len() / Self::ELEMENT_BYTES`. -/
def decodeCubes (R : ByteRepr B) : List Nat → Nat → List (CubeExtension B)
  | _, 0 => []
  | bytes, Nat.succ n =>
      ⟨R.fromRaw (bytes.take R.elementBytes),
        R.fromRaw ((bytes.drop R.elementBytes).take R.elementBytes),
        R.fromRaw ((bytes.drop (2 * R.elementBytes)).take R.elementBytes)⟩ ::
      decodeCubes R (bytes.drop (3 * R.elementBytes)) n

/-- The error message of the length check in `bytes_as_elements`. -/
def invalidLengthMsg (n : Nat) : String :=
  String.append (String.append ("number of bytes (") (toString n))
    (") does not divide into whole number of field elements")

/-- The error message of the alignment check in `bytes_as_elements`. -/
def invalidAlignmentMsg : String :=
  "slice memory alignment is not valid for this field element type"

/-- Rust `bytes_as_elements` (lines 105-124): reject a byte length that is not a
multiple of `ELEMENT_BYTES`, then reject a starting address that is not
aligned to the base element size, then reinterpret the memory as
`bytes.len() / ELEMENT_BYTES` cubic elements.  `addr` models the starting
address `bytes.as_ptr()`. -/
def bytes_as_elements (R : ByteRepr B) (addr : Nat) (bytes : List Nat) :
    Except DeserializationError (List (CubeExtension B)) :=
  if bytes.length % ELEMENT_BYTES R ≠ 0 then
    Except.error (DeserializationError.invalidValue (invalidLengthMsg bytes.length))
  else if addr % R.elementBytes ≠ 0 then
    Except.error (DeserializationError.invalidValue invalidAlignmentMsg)
  else
    Except.ok (decodeCubes R bytes (bytes.length / ELEMENT_BYTES R))

/-- Rust `Serializable::write_into` (lines 308-314): serialize the α, β, γ
coefficients in that fixed order via the base field's serialization. -/
def write_into (R : ByteRepr B) (x : CubeExtension B) : List Nat :=
  R.writeInto x.a0 ++ R.writeInto x.a1 ++ R.writeInto x.a2

/-- Rust `Deserializable::read_from` (lines 316-323): read three base elements in
order, propagating any base-field error unchanged. -/
def read_from (R : ByteRepr B) (bytes : List Nat) :
    Except DeserializationError (CubeExtension B × List Nat) :=
  match R.readFrom bytes with
  | Except.error e => Except.error e
  | Except.ok (value0, r0) =>
    match R.readFrom r0 with
    | Except.error e => Except.error e
    | Except.ok (value1, r1) =>
      match R.readFrom r1 with
      | Except.error e => Except.error e
      | Except.ok (value2, r2) => Except.ok (⟨value0, value1, value2⟩, r2)

/-- The error message of the too-few-bytes check in `TryFrom<&[u8]>`. -/
def tooFewBytesMsg (expected got : Nat) : String :=
  String.append (String.append (String.append
    ("not enough bytes for a full field element; expected ") (toString expected))
    (" bytes, but was ")) (String.append (toString got) (" bytes"))

/-- The error message of the too-many-bytes check in `TryFrom<&[u8]>`. -/
def tooManyBytesMsg (expected got : Nat) : String :=
  String.append (String.append (String.append
    ("too many bytes for a field element; expected ") (toString expected))
    (" bytes, but was ")) (String.append (toString got) (" bytes"))

/-- Rust `TryFrom<&[u8]>` (lines 272-295): exact-length check on both sides, then
delegate to `read_from` over a reader on those bytes. -/
def try_from (R : ByteRepr B) (bytes : List Nat) :
    Except DeserializationError (CubeExtension B) :=
  if bytes.length < ELEMENT_BYTES R then
    Except.error (DeserializationError.invalidValue
      (tooFewBytesMsg (ELEMENT_BYTES R) bytes.length))
  else if bytes.length > ELEMENT_BYTES R then
    Except.error (DeserializationError.invalidValue
      (tooManyBytesMsg (ELEMENT_BYTES R) bytes.length))
  else
    match read_from R bytes with
    | Except.error e => Except.error e
    | Except.ok (x, _) => Except.ok x

/-- Component-wise scaling of a coefficient triple by a base element on the
right, as performed on `numerator` in the last step of `inv`. -/
def tscale (F : ExtensibleField3 B) (k : B) (t : B × B × B) : B × B × B :=
  (F.mul t.1 k, F.mul t.2.1 k, F.mul t.2.2 k)

end CubeExtension

/-! ### Concrete instantiations used by witnesses

The repository's own base fields (`f64`, `f62`, `f128`) live outside
`src/field/extensions/cubic.rs`; witnesses instantiate the capability with
GF(2) and its cubic extension GF(8) = GF(2)[φ]/(φ³ + φ + 1), where the
Frobenius map is squaring. -/

/-- Multiplication of coefficient triples over GF(2) modulo the irreducible
cubic φ³ + φ + 1 (so φ³ = φ + 1 and φ⁴ = φ² + φ). -/
def gf8mul (x y : ZMod 2 × ZMod 2 × ZMod 2) : ZMod 2 × ZMod 2 × ZMod 2 :=
  let d0 := x.1 * y.1
  let d1 := x.1 * y.2.1 + x.2.1 * y.1
  let d2 := x.1 * y.2.2 + x.2.1 * y.2.1 + x.2.2 * y.1
  let d3 := x.2.1 * y.2.2 + x.2.2 * y.2.1
  let d4 := x.2.2 * y.2.2
  (d0 + d3, d1 + d3 + d4, d2 + d4)

/-- The GF(2) instantiation of the base-field arithmetic interface: the
Frobenius endomorphism in characteristic 2 is squaring. -/
def gf2 : ExtensibleField3 (ZMod 2) where
  zero := 0
  one := 1
  add := fun a b => a + b
  sub := fun a b => a - b
  mul := fun a b => a * b
  neg := fun a => -a
  -- in GF(2) both elements are their own multiplicative inverse (with 0 ↦ 0)
  inv := fun a => a
  tmul := gf8mul
  frobenius := fun t => gf8mul t t
  zeroedVector := fun m => List.replicate m 0

/-- The GF(2) instantiation of the byte-level interface: one byte per element,
the byte 0 or 1 holding the element value. -/
def gf2Repr : ByteRepr (ZMod 2) where
  elementBytes := 1
  fromRaw := fun bytes => ((bytes.headD 0 : Nat) : ZMod 2)
  writeInto := fun b => [b.val]
  readFrom := fun bytes =>
    match bytes with
    | [] => Except.error DeserializationError.unexpectedEOF
    | x :: rest =>
      if x < 2 then Except.ok (((x : Nat) : ZMod 2), rest)
      else Except.error (DeserializationError.invalidValue ("byte is not a field element"))

/-- Little-endian value of a byte list. -/
def leDecode : List Nat → Nat
  | [] => 0
  | b :: rest => b + 256 * leDecode rest

/-- Little-endian encoding of `n` into `w` bytes. -/
def leEncode (n : Nat) : Nat → List Nat
  | 0 => []
  | Nat.succ w => (n % 256) :: leEncode (n / 256) w

/-- Modelled from the spec: the concrete base field of the §8 test scenario
(`f64::BaseElement`, "64-bit prime field, element byte size 8", little-endian)
is not under `src/`; we model it as the prime field of order 2⁶⁴ − 2³² + 1
with 8-byte little-endian element layout. -/
abbrev F64 := ZMod 18446744069414584321

/-- Modelled from the spec: the byte-level interface of the 64-bit base field
of the §8 test scenario — 8 bytes per element, little-endian. -/
def f64Repr : ByteRepr F64 where
  elementBytes := 8
  fromRaw := fun bytes => ((leDecode (bytes.take 8) : Nat) : F64)
  writeInto := fun b => leEncode b.val 8
  readFrom := fun bytes =>
    if bytes.length < 8 then Except.error DeserializationError.unexpectedEOF
    else if leDecode (bytes.take 8) < 18446744069414584321 then
      Except.ok (((leDecode (bytes.take 8) : Nat) : F64), bytes.drop 8)
    else Except.error (DeserializationError.invalidValue ("value not in field"))

/-- The 49-byte buffer of the `bytes_as_elements` test (lines 406-435): the
8-byte little-endian encodings of the base values 1..6 followed by a stray
trailing byte 7. -/
def testBytes : List Nat :=
  leEncode 1 8 ++ leEncode 2 8 ++ leEncode 3 8 ++
    leEncode 4 8 ++ leEncode 5 8 ++ leEncode 6 8 ++ [7]

namespace CubeExtension

variable {B : Type}

/-- Round-tripping a coefficient triple through the element type is the
identity. -/
theorem toTriple_ofTriple (t : B × B × B) : (ofTriple t).toTriple = t := rfl

/-- The inversion procedure as the spec describes it for a nonzero element:
c1 = frobenius(x), c2 = frobenius(frobenius(x)) (Frobenius applied exactly
twice), numerator = tripleMultiply(c1, c2), norm = tripleMultiply(x,
numerator), result = numerator scaled component-wise by the base-field
inverse of norm's first (α) component. -/
def specInvert (F : ExtensibleField3 B) (x : CubeExtension B) : CubeExtension B :=
  let c1 := F.frobenius (toTriple x)
  let c2 := F.frobenius (F.frobenius (toTriple x))
  let numerator := F.tmul c1 c2
  let norm := F.tmul (toTriple x) numerator
  ofTriple (tscale F (F.inv norm.1) numerator)

end CubeExtension

/-- C1: For every nonzero extension element x, `inv` computes c1 =
frobenius(x), c2 = frobenius(frobenius(x)), numerator = tripleMultiply(c1,
c2), norm = tripleMultiply(x, numerator), and returns numerator scaled
component-wise by the base-field inverse of norm's α component; and for every
x, `conjugate` is exactly one application of Frobenius. -/
theorem CubeExtension.inv_double_frobenius_conjugate_single {B : Type}
    [DecidableEq B] (F : ExtensibleField3 B) :
    (∀ x : CubeExtension B, x ≠ ZERO F → inv F x = specInvert F x) ∧
    (∀ x : CubeExtension B, conjugate F x = ofTriple (F.frobenius (toTriple x))) := by
  constructor
  · intro x hx
    simp [inv, hx, specInvert, tscale, ofTriple]
  · intro x
    rfl

/-- Witness for C1 at the GF(8) instantiation, x = 1 + φ and x = 1 + φ². -/
theorem CubeExtension.inv_double_frobenius_conjugate_single_witness :
    (⟨1, 1, 0⟩ : CubeExtension (ZMod 2)) ≠ CubeExtension.ZERO gf2 ∧
    CubeExtension.inv gf2 ⟨1, 1, 0⟩ = CubeExtension.specInvert gf2 ⟨1, 1, 0⟩ ∧
    CubeExtension.conjugate gf2 ⟨1, 0, 1⟩ =
      CubeExtension.ofTriple (gf2.frobenius (CubeExtension.toTriple ⟨1, 0, 1⟩)) :=
  ⟨by decide,
    (CubeExtension.inv_double_frobenius_conjugate_single gf2).1 ⟨1, 1, 0⟩ (by decide),
    (CubeExtension.inv_double_frobenius_conjugate_single gf2).2 ⟨1, 0, 1⟩⟩

/-- C2: For every nonzero extension element x, `x * inv x = ONE`, under
the assumptions that the capability's triple multiplication is linear over
right scaling, that the norm of a nonzero element lands in the base field
with nonzero α component (the source's own debug assertions), and that the
base field's inversion and zero-multiplication laws hold. -/
theorem CubeExtension.mul_inv_eq_one {B : Type} [DecidableEq B]
    (F : ExtensibleField3 B)
    (hlin : ∀ (a b : B × B × B) (k : B),
      F.tmul a (tscale F k b) = tscale F k (F.tmul a b))
    (hnorm : ∀ t : B × B × B, t ≠ (F.zero, F.zero, F.zero) →
      (F.tmul t (F.tmul (F.frobenius t) (F.frobenius (F.frobenius t)))).2.1 = F.zero ∧
      (F.tmul t (F.tmul (F.frobenius t) (F.frobenius (F.frobenius t)))).2.2 = F.zero ∧
      (F.tmul t (F.tmul (F.frobenius t) (F.frobenius (F.frobenius t)))).1 ≠ F.zero)
    (hinv : ∀ b : B, b ≠ F.zero → F.mul b (F.inv b) = F.one)
    (hz : ∀ b : B, F.mul F.zero b = F.zero)
    (x : CubeExtension B) (hx : x ≠ ZERO F) :
    mul F x (inv F x) = ONE F := by
  have hxt : toTriple x ≠ (F.zero, F.zero, F.zero) := by
    intro h
    apply hx
    obtain ⟨a, b, c⟩ := x
    simp only [toTriple, Prod.mk.injEq] at h
    obtain ⟨h1, h2, h3⟩ := h
    simp [ZERO, h1, h2, h3]
  obtain ⟨hn1, hn2, hn0⟩ := hnorm (toTriple x) hxt
  have hne : inv F x =
      ofTriple (tscale F
        (F.inv (F.tmul (toTriple x)
          (F.tmul (F.frobenius (toTriple x))
            (F.frobenius (F.frobenius (toTriple x))))).1)
        (F.tmul (F.frobenius (toTriple x))
          (F.frobenius (F.frobenius (toTriple x))))) := by
    simp [inv, hx, ofTriple, tscale]
  rw [mul, hne, toTriple_ofTriple, hlin]
  simp only [tscale, ofTriple, ONE]
  rw [hn1, hn2, hinv _ hn0, hz]

/-- Witness for C2 at the GF(8) instantiation, x = 1 + φ. -/
theorem CubeExtension.mul_inv_eq_one_witness :
    (⟨1, 1, 0⟩ : CubeExtension (ZMod 2)) ≠ CubeExtension.ZERO gf2 ∧
    CubeExtension.mul gf2 ⟨1, 1, 0⟩ (CubeExtension.inv gf2 ⟨1, 1, 0⟩) =
      CubeExtension.ONE gf2 :=
  ⟨by decide,
    CubeExtension.mul_inv_eq_one gf2 (by decide) (by decide) (by decide)
      (by decide) ⟨1, 1, 0⟩ (by decide)⟩

/-- C3: `inv ZERO = ZERO` (a defined sentinel, not an error), `div x y =
x * inv y` for all x and y, and hence `div x ZERO = ZERO` for every x, given
the capability's multiplication-by-the-zero-triple law. -/
theorem CubeExtension.inv_zero_div_sentinel {B : Type} [DecidableEq B]
    (F : ExtensibleField3 B)
    (hmz : ∀ t : B × B × B,
      F.tmul t (F.zero, F.zero, F.zero) = (F.zero, F.zero, F.zero)) :
    inv F (ZERO F) = ZERO F ∧
    (∀ x y : CubeExtension B, div F x y = mul F x (inv F y)) ∧
    (∀ x : CubeExtension B, div F x (ZERO F) = ZERO F) := by
  have h0 : inv F (ZERO F) = ZERO F := by simp [inv]
  refine ⟨h0, fun x y => rfl, fun x => ?_⟩
  rw [div, h0]
  simp [mul, toTriple, ofTriple, ZERO, hmz]

/-- Witness for C3 at the GF(8) instantiation, x = 1 + φ². -/
theorem CubeExtension.inv_zero_div_sentinel_witness :
    CubeExtension.inv gf2 (CubeExtension.ZERO gf2) = CubeExtension.ZERO gf2 ∧
    CubeExtension.div gf2 ⟨1, 0, 1⟩ (CubeExtension.ZERO gf2) =
      CubeExtension.ZERO gf2 :=
  ⟨(CubeExtension.inv_zero_div_sentinel gf2 (by decide)).1,
    (CubeExtension.inv_zero_div_sentinel gf2 (by decide)).2.2 ⟨1, 0, 1⟩⟩

/-- The typed view of `decodeCubes` always has exactly the requested number
of elements. -/
theorem CubeExtension.decodeCubes_length {B : Type} (R : ByteRepr B) :
    ∀ (bytes : List Nat) (n : Nat), (decodeCubes R bytes n).length = n := by
  intro bytes n
  induction n generalizing bytes with
  | zero => rfl
  | succ n ih => simp [decodeCubes, ih]

/-- C4: `bytes_as_elements` fails with the invalid-length condition when
the byte length is not a multiple of `ELEMENT_BYTES` (three base element
sizes); fails with the invalid-alignment condition when the length divides
but the starting address is not aligned to the base field's element size; and
otherwise succeeds with a view of exactly `bytes.length / ELEMENT_BYTES`
extension elements over the same memory. -/
theorem CubeExtension.bytes_as_elements_checks {B : Type} (R : ByteRepr B)
    (addr : Nat) (bytes : List Nat) :
    (bytes.length % ELEMENT_BYTES R ≠ 0 →
      bytes_as_elements R addr bytes =
        Except.error (DeserializationError.invalidValue
          (invalidLengthMsg bytes.length))) ∧
    (bytes.length % ELEMENT_BYTES R = 0 → addr % R.elementBytes ≠ 0 →
      bytes_as_elements R addr bytes =
        Except.error (DeserializationError.invalidValue invalidAlignmentMsg)) ∧
    (bytes.length % ELEMENT_BYTES R = 0 → addr % R.elementBytes = 0 →
      ∃ view, bytes_as_elements R addr bytes = Except.ok view ∧
        view.length = bytes.length / ELEMENT_BYTES R ∧
        view = decodeCubes R bytes (bytes.length / ELEMENT_BYTES R)) := by
  refine ⟨fun h => ?_, fun h1 h2 => ?_, fun h1 h2 => ?_⟩
  · simp [bytes_as_elements, h]
  · simp [bytes_as_elements, h1, h2]
  · refine ⟨decodeCubes R bytes (bytes.length / ELEMENT_BYTES R), ?_,
      decodeCubes_length R bytes _, rfl⟩
    simp [bytes_as_elements, h1, h2]

/-- Witness for C4: a good decode over GF(2), a length failure over GF(2),
and an alignment failure over the modelled 64-bit field. -/
theorem CubeExtension.bytes_as_elements_checks_witness :
    (CubeExtension.bytes_as_elements gf2Repr 0 [1, 0, 1, 0, 1, 1] =
      Except.ok [⟨1, 0, 1⟩, ⟨0, 1, 1⟩] ∧
      ([1, 0, 1, 0, 1, 1] : List Nat).length /
        CubeExtension.ELEMENT_BYTES gf2Repr = 2) ∧
    CubeExtension.bytes_as_elements gf2Repr 0 [1] =
      Except.error (DeserializationError.invalidValue
        (CubeExtension.invalidLengthMsg 1)) ∧
    CubeExtension.bytes_as_elements f64Repr 3 [] =
      Except.error (DeserializationError.invalidValue
        CubeExtension.invalidAlignmentMsg) := by
  refine ⟨?_, ?_, ?_⟩
  · obtain ⟨view, hview, hlen, hdef⟩ :=
      (CubeExtension.bytes_as_elements_checks gf2Repr 0 [1, 0, 1, 0, 1, 1]).2.2
        (by decide) (by decide)
    constructor
    · rw [hview, hdef]
      decide
    · decide
  · exact (CubeExtension.bytes_as_elements_checks gf2Repr 0 [1]).1 (by decide)
  · exact (CubeExtension.bytes_as_elements_checks f64Repr 3 []).2.1
      (by decide) (by decide)

/-- C5 (amended): For the concrete 49-byte test buffer over the 64-bit
base field: decoding the first 48 bytes reproduces the elements (1,2,3) and
(4,5,6); decoding all 49 bytes fails with the invalid-length condition; and
decoding the 48-byte subslice at offset 1 fails with the invalid-alignment
condition (its length 48 is a multiple of 24, so the length check passes and
the misaligned start address is what is rejected). -/
theorem CubeExtension.concrete_decode_scenario :
    CubeExtension.bytes_as_elements f64Repr 0 (testBytes.take 48) =
      Except.ok [⟨1, 2, 3⟩, ⟨4, 5, 6⟩] ∧
    CubeExtension.bytes_as_elements f64Repr 0 testBytes =
      Except.error (DeserializationError.invalidValue
        (CubeExtension.invalidLengthMsg 49)) ∧
    CubeExtension.bytes_as_elements f64Repr 1 (testBytes.drop 1) =
      Except.error (DeserializationError.invalidValue
        CubeExtension.invalidAlignmentMsg) :=
  ⟨by decide, by decide, by decide⟩

/-- Counterexample to C5 as stated: decoding the subslice at offset 1 yields
the alignment error, whose message differs from the invalid-length message,
and indeed the subslice's length 48 passes the length check. -/
theorem CubeExtension.concrete_subslice_not_length_error :
    CubeExtension.bytes_as_elements f64Repr 1 (testBytes.drop 1) =
      Except.error (DeserializationError.invalidValue
        CubeExtension.invalidAlignmentMsg) ∧
    CubeExtension.invalidAlignmentMsg ≠ CubeExtension.invalidLengthMsg 48 ∧
    (testBytes.drop 1).length % CubeExtension.ELEMENT_BYTES f64Repr = 0 :=
  ⟨by decide, by decide, by decide⟩

/-- C6: `try_from` fails with the too-few-bytes error exactly on inputs
shorter than `ELEMENT_BYTES`, with the too-many-bytes error exactly on longer
inputs, and otherwise delegates to `read_from`; `read_from` reads three base
elements in order and propagates any base-field deserialization error
unchanged. -/
theorem CubeExtension.try_from_exact_length_and_read_from {B : Type}
    (R : ByteRepr B) (bytes : List Nat) :
    (bytes.length < ELEMENT_BYTES R →
      try_from R bytes = Except.error (DeserializationError.invalidValue
        (tooFewBytesMsg (ELEMENT_BYTES R) bytes.length))) ∧
    (ELEMENT_BYTES R < bytes.length →
      try_from R bytes = Except.error (DeserializationError.invalidValue
        (tooManyBytesMsg (ELEMENT_BYTES R) bytes.length))) ∧
    (bytes.length = ELEMENT_BYTES R →
      try_from R bytes = Except.map Prod.fst (read_from R bytes)) ∧
    (∀ e, R.readFrom bytes = Except.error e →
      read_from R bytes = Except.error e) ∧
    (∀ v0 r0 e, R.readFrom bytes = Except.ok (v0, r0) →
      R.readFrom r0 = Except.error e → read_from R bytes = Except.error e) ∧
    (∀ v0 r0 v1 r1 e, R.readFrom bytes = Except.ok (v0, r0) →
      R.readFrom r0 = Except.ok (v1, r1) → R.readFrom r1 = Except.error e →
      read_from R bytes = Except.error e) ∧
    (∀ v0 r0 v1 r1 v2 r2, R.readFrom bytes = Except.ok (v0, r0) →
      R.readFrom r0 = Except.ok (v1, r1) → R.readFrom r1 = Except.ok (v2, r2) →
      read_from R bytes = Except.ok (⟨v0, v1, v2⟩, r2)) := by
  refine ⟨fun h => ?_, fun h => ?_, fun h => ?_, fun e h0 => ?_,
    fun v0 r0 e h0 h1 => ?_, fun v0 r0 v1 r1 e h0 h1 h2 => ?_,
    fun v0 r0 v1 r1 v2 r2 h0 h1 h2 => ?_⟩
  · simp [try_from, h]
  · have hnl : ¬ bytes.length < ELEMENT_BYTES R := Nat.not_lt.2 (Nat.le_of_lt h)
    simp [try_from, hnl, h]
  · have hnl : ¬ bytes.length < ELEMENT_BYTES R := by omega
    have hng : ¬ ELEMENT_BYTES R < bytes.length := by omega
    simp only [try_from, hnl, if_false, hng, gt_iff_lt]
    cases hr : read_from R bytes with
    | error e => simp [hr, Except.map]
    | ok v => simp [hr, Except.map]
  · simp [read_from, h0]
  · simp [read_from, h0, h1]
  · simp [read_from, h0, h1, h2]
  · simp [read_from, h0, h1, h2]

/-- Witness for C6 over the GF(2) byte interface (`ELEMENT_BYTES` = 3). -/
theorem CubeExtension.try_from_exact_length_and_read_from_witness :
    CubeExtension.try_from gf2Repr [1] =
      Except.error (DeserializationError.invalidValue
        (CubeExtension.tooFewBytesMsg 3 1)) ∧
    CubeExtension.try_from gf2Repr [1, 0, 1, 0] =
      Except.error (DeserializationError.invalidValue
        (CubeExtension.tooManyBytesMsg 3 4)) ∧
    CubeExtension.try_from gf2Repr [1, 0, 1] =
      Except.map Prod.fst (CubeExtension.read_from gf2Repr [1, 0, 1]) ∧
    CubeExtension.read_from gf2Repr [1, 0, 1] = Except.ok (⟨1, 0, 1⟩, []) ∧
    CubeExtension.read_from gf2Repr [1, 0, 7] =
      Except.error (DeserializationError.invalidValue
        ("byte is not a field element")) :=
  ⟨(CubeExtension.try_from_exact_length_and_read_from gf2Repr [1]).1 (by decide),
    (CubeExtension.try_from_exact_length_and_read_from gf2Repr
      [1, 0, 1, 0]).2.1 (by decide),
    (CubeExtension.try_from_exact_length_and_read_from gf2Repr
      [1, 0, 1]).2.2.1 (by decide),
    (CubeExtension.try_from_exact_length_and_read_from gf2Repr
      [1, 0, 1]).2.2.2.2.2.2 1 [0, 1] 0 [1] 1 [] (by decide) (by decide)
      (by decide),
    (CubeExtension.try_from_exact_length_and_read_from gf2Repr
      [1, 0, 7]).2.2.2.2.2.1 1 [0, 7] 0 [7]
      (DeserializationError.invalidValue ("byte is not a field element"))
      (by decide) (by decide) (by decide)⟩

/-- The GF(2) byte interface satisfies the base field's read/write round-trip
contract. -/
theorem gf2Repr_read_write : ∀ (b : ZMod 2) (rest : List Nat),
    gf2Repr.readFrom (gf2Repr.writeInto b ++ rest) = Except.ok (b, rest) := by
  intro b rest
  fin_cases b <;> rfl

/-- C7: `write_into` serializes the coefficients in the fixed order α,
β, γ via the base field's serialization, and deserializing the serialization
of any element yields the element back, given that the base field's reader
inverts its writer and that the base writer emits `elementBytes` bytes. -/
theorem CubeExtension.serialization_round_trip {B : Type} (R : ByteRepr B)
    (hlen : ∀ b : B, (R.writeInto b).length = R.elementBytes)
    (hrt : ∀ (b : B) (rest : List Nat),
      R.readFrom (R.writeInto b ++ rest) = Except.ok (b, rest)) :
    (∀ x : CubeExtension B, write_into R x =
      R.writeInto x.a0 ++ R.writeInto x.a1 ++ R.writeInto x.a2) ∧
    (∀ x : CubeExtension B, try_from R (write_into R x) = Except.ok x) := by
  refine ⟨fun x => rfl, fun x => ?_⟩
  have hL : (write_into R x).length = ELEMENT_BYTES R := by
    simp [write_into, ELEMENT_BYTES, hlen]
    ring
  have h0 : R.readFrom (write_into R x) =
      Except.ok (x.a0, R.writeInto x.a1 ++ R.writeInto x.a2) := by
    have h := hrt x.a0 (R.writeInto x.a1 ++ R.writeInto x.a2)
    rw [write_into, List.append_assoc]
    exact h
  have h1 : R.readFrom (R.writeInto x.a1 ++ R.writeInto x.a2) =
      Except.ok (x.a1, R.writeInto x.a2) := hrt x.a1 (R.writeInto x.a2)
  have h2 : R.readFrom (R.writeInto x.a2) = Except.ok (x.a2, []) := by
    have h := hrt x.a2 []
    rwa [List.append_nil] at h
  have hnl : ¬ (write_into R x).length < ELEMENT_BYTES R := by omega
  have hng : ¬ ELEMENT_BYTES R < (write_into R x).length := by omega
  simp [try_from, hnl, hng, read_from, h0, h1, h2]

/-- Witness for C7 over the GF(2) byte interface, x = (1, 0, 1). -/
theorem CubeExtension.serialization_round_trip_witness :
    CubeExtension.write_into gf2Repr ⟨1, 0, 1⟩ =
      gf2Repr.writeInto (1 : ZMod 2) ++ gf2Repr.writeInto (0 : ZMod 2) ++
        gf2Repr.writeInto (1 : ZMod 2) ∧
    CubeExtension.try_from gf2Repr (CubeExtension.write_into gf2Repr ⟨1, 0, 1⟩) =
      Except.ok ⟨1, 0, 1⟩ :=
  ⟨(CubeExtension.serialization_round_trip gf2Repr (fun _ => rfl)
      gf2Repr_read_write).1 ⟨1, 0, 1⟩,
    (CubeExtension.serialization_round_trip gf2Repr (fun _ => rfl)
      gf2Repr_read_write).2 ⟨1, 0, 1⟩⟩

/-- Repacking a replicated base vector of length 3n produces n copies of the
fused triple. -/
theorem CubeExtension.base_to_cubic_replicate {B : Type} (z : B) :
    ∀ n : Nat, base_to_cubic_vector (List.replicate (n * 3) z) =
      List.replicate n (⟨z, z, z⟩ : CubeExtension B) := by
  intro n
  induction n with
  | zero => rfl
  | succ n ih =>
    have h3 : (n + 1) * 3 = 3 + n * 3 := by ring
    rw [h3, List.replicate_add]
    simp [base_to_cubic_vector, ih, List.replicate_succ]

/-- C8: `zeroed_vector n` requests 3n zeroed base elements from the base
field and repacks them, and — given that the base field's `zeroed_vector`
yields zeros — the result is exactly n copies of the zero triple, so it has
length n and each element equals `construct(zero, zero, zero)`. -/
theorem CubeExtension.zeroed_vector_spec {B : Type} (F : ExtensibleField3 B)
    (hzv : ∀ m, F.zeroedVector m = List.replicate m F.zero) (n : Nat) :
    zeroed_vector F n = base_to_cubic_vector (F.zeroedVector (n * 3)) ∧
    zeroed_vector F n =
      List.replicate n (⟨F.zero, F.zero, F.zero⟩ : CubeExtension B) ∧
    (zeroed_vector F n).length = n ∧
    ∀ e ∈ zeroed_vector F n,
      e = (⟨F.zero, F.zero, F.zero⟩ : CubeExtension B) := by
  have h2 : zeroed_vector F n =
      List.replicate n (⟨F.zero, F.zero, F.zero⟩ : CubeExtension B) := by
    rw [zeroed_vector, hzv, base_to_cubic_replicate]
  refine ⟨rfl, h2, ?_, ?_⟩
  · rw [h2, List.length_replicate]
  · intro e he
    rw [h2] at he
    exact List.eq_of_mem_replicate he

/-- Witness for C8 over GF(2) with n = 2. -/
theorem CubeExtension.zeroed_vector_spec_witness :
    CubeExtension.zeroed_vector gf2 2 =
      List.replicate 2 (⟨gf2.zero, gf2.zero, gf2.zero⟩ : CubeExtension (ZMod 2)) ∧
    (CubeExtension.zeroed_vector gf2 2).length = 2 :=
  ⟨(CubeExtension.zeroed_vector_spec gf2 (fun _ => rfl) 2).2.1,
    (CubeExtension.zeroed_vector_spec gf2 (fun _ => rfl) 2).2.2.1⟩

/-- The repacked vector has one third (rounded down) the length of the
source vector. -/
theorem CubeExtension.base_to_cubic_length {B : Type} (S : List B) :
    (base_to_cubic_vector S).length = S.length / 3 := by
  match S with
  | [] => simp [base_to_cubic_vector]
  | [a] => simp [base_to_cubic_vector]
  | [a, b] => simp [base_to_cubic_vector]
  | a :: b :: c :: rest =>
    have ih := base_to_cubic_length rest
    simp only [base_to_cubic_vector, List.length_cons, ih]
    omega

/-- Viewing the repacked vector as base elements recovers the first
`3 * (|S| / 3)` source elements. -/
theorem CubeExtension.as_base_base_to_cubic {B : Type} (S : List B) :
    as_base_elements (base_to_cubic_vector S) =
      S.take (3 * (S.length / 3)) := by
  match S with
  | [] => simp [base_to_cubic_vector, as_base_elements]
  | [a] => simp [base_to_cubic_vector, as_base_elements]
  | [a, b] => simp [base_to_cubic_vector, as_base_elements]
  | a :: b :: c :: rest =>
    have ih := as_base_base_to_cubic rest
    have h3 : 3 * ((rest.length + 3) / 3) =
        ((3 * (rest.length / 3) + 1) + 1) + 1 := by omega
    simp only [base_to_cubic_vector, as_base_elements, List.flatMap_cons,
      List.length_cons] at ih ⊢
    rw [h3]
    simp only [List.take_succ_cons, List.cons_append, List.nil_append]
    rw [ih]

/-- C9: For every base-element sequence S whose length is a multiple of
3, viewing `base_to_cubic_vector S` as base elements yields S back, element
for element. -/
theorem CubeExtension.pack_unpack_round_trip {B : Type} (S : List B)
    (h : S.length % 3 = 0) :
    as_base_elements (base_to_cubic_vector S) = S := by
  rw [as_base_base_to_cubic]
  have h3 : 3 * (S.length / 3) = S.length := by omega
  rw [h3, List.take_length]

/-- Witness for C9 over GF(2) with a six-element sequence. -/
theorem CubeExtension.pack_unpack_round_trip_witness :
    ([0, 1, 1, 0, 0, 1] : List (ZMod 2)).length % 3 = 0 ∧
    CubeExtension.as_base_elements
      (CubeExtension.base_to_cubic_vector ([0, 1, 1, 0, 0, 1] : List (ZMod 2))) =
      [0, 1, 1, 0, 0, 1] :=
  ⟨by decide,
    CubeExtension.pack_unpack_round_trip ([0, 1, 1, 0, 0, 1] : List (ZMod 2))
      (by decide)⟩

/-- C10: With debug assertions disabled, `base_to_cubic_vector` accepts a
source vector of any length L and produces exactly ⌊L/3⌋ extension elements,
silently discarding the trailing L mod 3 base elements: the repacked result
viewed as base elements is the first `3 * (L / 3)` source elements. -/
theorem CubeExtension.base_to_cubic_release_semantics {B : Type} (S : List B) :
    (base_to_cubic_vector S).length = S.length / 3 ∧
    as_base_elements (base_to_cubic_vector S) =
      S.take (3 * (S.length / 3)) :=
  ⟨base_to_cubic_length S, as_base_base_to_cubic S⟩
